import Mathlib

/-!
Verification of the pocket-migration scripts
(`extract_unread_links.py` and `import_to_psreadthis.py`).

The Python code is shallowly embedded: every network interaction of the
importer is mediated by an oracle `post : List PSLink → HttpResult` that
models `self.session.post(self.endpoint, json=body)` — a deterministic
map from the JSON body to either a response (status code and text) or a
raised transport exception.  Console printing is not modelled except for
the extractor's warning log, which one claim is about.  Python string
methods are modelled over the character list of the string: `str.strip`
as `pyStrip` (ASCII whitespace; Python additionally strips `\f`, `\v`
and Unicode spaces, which no relevant literal contains), `str.lower` as
`pyLower` (ASCII; no relevant literal is non-ASCII), `str.isdigit` as
`pyIsDigit` (ASCII digits; Python additionally accepts some Unicode
digits) and `int(...)` on an all-digit string as the decimal fold
`pyInt`.
-/

namespace PSReadThis

/-- Python `str.strip()`: drop leading and trailing whitespace. -/
def pyStrip (s : String) : String :=
  ⟨((s.data.dropWhile Char.isWhitespace).reverse.dropWhile Char.isWhitespace).reverse⟩

/-- Python `str.lower()`. -/
def pyLower (s : String) : String :=
  ⟨s.data.map Char.toLower⟩

/-- Python `s and s.isdigit()`: nonempty and all digits. -/
def pyIsDigit (s : String) : Bool :=
  !s.data.isEmpty && s.data.all Char.isDigit

/-- Python `int(s)` for an all-digit string. -/
def pyInt (s : String) : Nat :=
  s.data.foldl (fun n c => n * 10 + (c.toNat - 48)) 0

/-- Result of one `session.post` call: either an HTTP response with status
code and body text, or a raised transport exception with message text. -/
inductive HttpResult where
  | resp (status : Nat) (text : String)
  | exn (msg : String)
deriving DecidableEq, Repr

/-- One record in PSReadThis format, as built by `prepare_link_data`
(`import_to_psreadthis.py` lines 41-55).  Only `raw_url` is read again by
the batch-send phase (for error messages); the other fields are carried
verbatim. -/
structure PSLink where
  id : String
  user_id : String
  raw_url : String
  resolved_url : Option String
  title : Option String
  list : String
  status : String
  device_saved : String
  created_at : String
deriving DecidableEq, Repr

/-- The network oracle: the response the session produces for a POST whose
JSON body is the given list of records. -/
abbrev Post := List PSLink → HttpResult

/-- The mutable `results` dict of `batch_insert` / `individual_insert`:
`{'success': 0, 'failed': 0, 'errors': []}`.  Python integers are `Int`
for `failed` (it is decremented by `batch_insert`). -/
structure Results where
  success : Nat
  failed : Int
  errors : List String
deriving DecidableEq, Repr

/-- `response.status_code in [200, 201]` (lines 92 and 131). -/
def isOK (code : Nat) : Bool := code == 200 || code == 201

/-- `f"Individual {i} failed: {response.status_code} - {link['raw_url']}"` (line 136). -/
def indFailMsg (i : Nat) (code : Nat) (url : String) : String :=
  "Individual " ++ toString i ++ " failed: " ++ toString code ++ " - " ++ url

/-- `f"Individual {i} exception: {str(e)} - {link['raw_url']}"` (line 144). -/
def indExnMsg (i : Nat) (msg : String) (url : String) : String :=
  "Individual " ++ toString i ++ " exception: " ++ msg ++ " - " ++ url

/-- `f"Batch {batch_num} failed: {response.status_code} - {response.text}"` (line 97). -/
def batchFailMsg (num : Nat) (code : Nat) (text : String) : String :=
  "Batch " ++ toString num ++ " failed: " ++ toString code ++ " - " ++ text

/-- `f"Batch {batch_num} exception: {str(e)}"` (line 110). -/
def batchExnMsg (num : Nat) (msg : String) : String :=
  "Batch " ++ toString num ++ " exception: " ++ msg

/-- The loop of `individual_insert` (lines 127-146): `i` is the 1-based
`enumerate` counter, `acc` the running `results` dict, `trace` the POST
bodies issued so far (each individual retry posts `json=[link]`). -/
def individual_insert_go (post : Post) (i : Nat) (acc : Results)
    (trace : List (List PSLink)) : List PSLink → Results × List (List PSLink)
  | [] => (acc, trace)
  | link :: rest =>
    match post [link] with
    | .resp code _text =>
      if isOK code then
        individual_insert_go post (i + 1)
          { acc with success := acc.success + 1 } (trace ++ [[link]]) rest
      else
        individual_insert_go post (i + 1)
          { acc with failed := acc.failed + 1,
                     errors := acc.errors ++ [indFailMsg i code link.raw_url] }
          (trace ++ [[link]]) rest
    | .exn msg =>
        individual_insert_go post (i + 1)
          { acc with failed := acc.failed + 1,
                     errors := acc.errors ++ [indExnMsg i msg link.raw_url] }
          (trace ++ [[link]]) rest

/-- `individual_insert` (lines 119-148), additionally returning the list of
POST bodies issued. -/
def individual_insert (post : Post) (links : List PSLink) :
    Results × List (List PSLink) :=
  individual_insert_go post 1 ⟨0, 0, []⟩ [] links

/-- Whether the individual send of one record succeeds under the oracle. -/
def indOk (post : Post) (link : PSLink) : Bool :=
  match post [link] with
  | .resp code _ => isOK code
  | .exn _ => false

/-- The error entries `individual_insert` produces, starting at counter `i`. -/
def indErrs (post : Post) (i : Nat) : List PSLink → List String
  | [] => []
  | link :: rest =>
    (match post [link] with
     | .resp code _ => if isOK code then [] else [indFailMsg i code link.raw_url]
     | .exn msg => [indExnMsg i msg link.raw_url]) ++ indErrs post (i + 1) rest

theorem individual_insert_go_eq (post : Post) :
    ∀ (links : List PSLink) (i : Nat) (acc : Results) (trace : List (List PSLink)),
    individual_insert_go post i acc trace links =
      ({ success := acc.success + links.countP (fun l => indOk post l),
         failed := acc.failed + (links.countP (fun l => !indOk post l) : Int),
         errors := acc.errors ++ indErrs post i links },
       trace ++ links.map (fun l => [l]))
  | [], i, acc, trace => by
      simp [individual_insert_go, indErrs]
  | link :: rest, i, acc, trace => by
      have ih := individual_insert_go_eq post rest (i + 1)
      unfold individual_insert_go
      rcases h : post [link] with ⟨code, text⟩ | msg
      · by_cases hc : isOK code
        all_goals simp [h, hc, ih, indOk, indErrs, List.countP_cons, List.append_assoc]
        all_goals omega
      · simp [h, ih, indOk, indErrs, List.countP_cons, List.append_assoc]
        omega

theorem individual_insert_eq (post : Post) (links : List PSLink) :
    individual_insert post links =
      ({ success := links.countP (fun l => indOk post l),
         failed := (links.countP (fun l => !indOk post l) : Int),
         errors := indErrs post 1 links },
       links.map (fun l => [l])) := by
  simp [individual_insert, individual_insert_go_eq]

/-- `links[i:i + batch_size]` for `i in range(0, len(links), batch_size)`
(line 83), written with a fuel argument (the list length) so the recursion
is structural. -/
def chunkGo (n : Nat) : Nat → List PSLink → List (List PSLink)
  | 0, _ => []
  | _, [] => []
  | fuel + 1, x :: xs => (x :: xs).take n :: chunkGo n fuel ((x :: xs).drop n)

/-- The list of batches the loop of `batch_insert` iterates over. -/
def chunkList (n : Nat) (links : List PSLink) : List (List PSLink) :=
  chunkGo n links.length links

/-- The loop of `batch_insert` (lines 83-115): `num` is the running
`batch_num`, `acc` the running `results` dict, `trace` the POST bodies
issued so far.  On a non-2xx response the code appends the batch error,
calls `individual_insert` on the same batch, adds its successes, subtracts
them from `failed`, and extends `errors`; on a raised exception it only
counts the whole batch failed and appends one error (no individual
fallback appears in the `except` clause). -/
def batch_insert_go (post : Post) :
    Nat → Results → List (List PSLink) → List (List PSLink) →
    Results × List (List PSLink)
  | _num, acc, trace, [] => (acc, trace)
  | num, acc, trace, batch :: rest =>
    match post batch with
    | .resp code text =>
      if isOK code then
        batch_insert_go post (num + 1)
          { acc with success := acc.success + batch.length }
          (trace ++ [batch]) rest
      else
        let acc1 : Results :=
          { acc with failed := acc.failed + batch.length,
                     errors := acc.errors ++ [batchFailMsg num code text] }
        let ind := individual_insert post batch
        batch_insert_go post (num + 1)
          { acc1 with success := acc1.success + ind.1.success,
                      failed := acc1.failed - ind.1.success,
                      errors := acc1.errors ++ ind.1.errors }
          (trace ++ [batch] ++ ind.2) rest
    | .exn msg =>
        batch_insert_go post (num + 1)
          { acc with failed := acc.failed + batch.length,
                     errors := acc.errors ++ [batchExnMsg num msg] }
          (trace ++ [batch]) rest

/-- `batch_insert` (lines 73-117), additionally returning the list of POST
bodies issued (its request trace). -/
def batch_insert (post : Post) (links : List PSLink) (batch_size : Nat) :
    Results × List (List PSLink) :=
  batch_insert_go post 1 ⟨0, 0, []⟩ [] (chunkList batch_size links)

/-- Net effect of processing one batch numbered `num`. -/
def batchDelta (post : Post) (num : Nat) (batch : List PSLink) :
    Results × List (List PSLink) :=
  match post batch with
  | .resp code text =>
    if isOK code then
      ({ success := batch.length, failed := 0, errors := [] }, [batch])
    else
      let ind := individual_insert post batch
      ({ success := ind.1.success,
         failed := (batch.length : Int) - ind.1.success,
         errors := batchFailMsg num code text :: ind.1.errors },
       batch :: ind.2)
  | .exn msg =>
    ({ success := 0, failed := (batch.length : Int), errors := [batchExnMsg num msg] },
     [batch])

/-- Componentwise combination of two `results` dicts. -/
def addResults (a b : Results) : Results :=
  ⟨a.success + b.success, a.failed + b.failed, a.errors ++ b.errors⟩

/-- Total effect of processing a list of batches starting at number `num`. -/
def batchDeltas (post : Post) : Nat → List (List PSLink) → Results × List (List PSLink)
  | _, [] => (⟨0, 0, []⟩, [])
  | num, b :: rest =>
    let d := batchDelta post num b
    let r := batchDeltas post (num + 1) rest
    (addResults d.1 r.1, d.2 ++ r.2)

theorem batch_insert_go_eq (post : Post) :
    ∀ (chunks : List (List PSLink)) (num : Nat) (acc : Results)
      (trace : List (List PSLink)),
    batch_insert_go post num acc trace chunks =
      (addResults acc (batchDeltas post num chunks).1,
       trace ++ (batchDeltas post num chunks).2)
  | [], num, acc, trace => by
      simp [batch_insert_go, batchDeltas, addResults]
  | batch :: rest, num, acc, trace => by
      have ih := batch_insert_go_eq post rest (num + 1)
      unfold batch_insert_go
      rcases h : post batch with ⟨code, text⟩ | msg
      · by_cases hc : isOK code
        · simp [h, hc, ih, batchDeltas, batchDelta, addResults, List.append_assoc]
          omega
        · simp [h, hc, ih, batchDeltas, batchDelta, addResults, List.append_assoc]
          omega
      · simp [h, ih, batchDeltas, batchDelta, addResults, List.append_assoc]
        omega

theorem batch_insert_eq (post : Post) (links : List PSLink) (batch_size : Nat) :
    batch_insert post links batch_size =
      ((batchDeltas post 1 (chunkList batch_size links)).1,
       (batchDeltas post 1 (chunkList batch_size links)).2) := by
  simp [batch_insert, batch_insert_go_eq, addResults]

theorem chunkGo_flatten (n : Nat) (hn : 0 < n) :
    ∀ (fuel : Nat) (xs : List PSLink), xs.length ≤ fuel →
      (chunkGo n fuel xs).flatten = xs
  | 0, xs, h => by
      have : xs = [] := List.length_eq_zero.mp (Nat.le_zero.mp h)
      simp [this, chunkGo]
  | fuel + 1, [], _ => by simp [chunkGo]
  | fuel + 1, x :: xs, h => by
      have hlen : ((x :: xs).drop n).length ≤ fuel := by
        simp only [List.length_drop, List.length_cons]
        simp only [List.length_cons] at h
        omega
      have ih := chunkGo_flatten n hn fuel ((x :: xs).drop n) hlen
      simp [chunkGo, ih]

theorem chunkList_flatten (n : Nat) (hn : 0 < n) (links : List PSLink) :
    (chunkList n links).flatten = links :=
  chunkGo_flatten n hn links.length links (Nat.le_refl _)

/-! ### Derived characterizations of the batch-send phase -/

/-- A record of a batch counts as failed at the end of the run: either
its whole batch raised a transport exception (no fallback occurs), or the
batch got a non-2xx response and the record's own individual send did not
get a 2xx response. -/
def recordFails (post : Post) (batch : List PSLink) (r : PSLink) : Bool :=
  match post batch with
  | .resp code _ => !isOK code && !indOk post r
  | .exn _ => true

/-- The error entry `individual_insert` records for record `r` at
counter `i`. -/
def indEntry (post : Post) (i : Nat) (r : PSLink) : String :=
  match post [r] with
  | .resp code _ => indFailMsg i code r.raw_url
  | .exn msg => indExnMsg i msg r.raw_url

/-- The error entry corresponding to the failed record at 0-based index
`i` of batch number `num`: the record's own individual-failure entry when
the batch fell back, or the batch's single exception entry. -/
def entryFor (post : Post) (num : Nat) (batch : List PSLink) (i : Nat) (r : PSLink) :
    String :=
  match post batch with
  | .resp _ _ => indEntry post (i + 1) r
  | .exn msg => batchExnMsg num msg

/-- The POST bodies issued for one batch: the batch request itself, then —
exactly when the response was non-2xx — one singleton request per record. -/
def batchTrace (post : Post) (b : List PSLink) : List (List PSLink) :=
  match post b with
  | .resp code _ => if isOK code then [b] else b :: b.map (fun r => [r])
  | .exn _ => [b]

theorem indEntry_mem_indErrs (post : Post) :
    ∀ (links : List PSLink) (i j : Nat) (r : PSLink),
      links[j]? = some r → indOk post r = false →
      indEntry post (i + j) r ∈ indErrs post i links
  | [], _, j, r, hj, _ => by simp at hj
  | l :: rest, i, 0, r, hj, hr => by
      simp only [List.getElem?_cons_zero, Option.some.injEq] at hj
      subst hj
      unfold indErrs
      apply List.mem_append_left
      rcases h : post [l] with ⟨code, text⟩ | msg
      · have hc : isOK code = false := by simpa [indOk, h] using hr
        simp [h, hc, indEntry]
      · simp [h, indEntry]
  | l :: rest, i, j + 1, r, hj, hr => by
      simp only [List.getElem?_cons_succ] at hj
      have ih := indEntry_mem_indErrs post rest (i + 1) j r hj hr
      have harith : i + 1 + j = i + (j + 1) := by omega
      rw [harith] at ih
      unfold indErrs
      exact List.mem_append_right _ ih

theorem batchDelta_success_failed (post : Post) (num : Nat) (b : List PSLink) :
    ((batchDelta post num b).1.success : Int) + (batchDelta post num b).1.failed =
      b.length := by
  unfold batchDelta
  rcases h : post b with ⟨code, text⟩ | msg
  · by_cases hc : isOK code
    · simp [hc]
    · simp [hc, individual_insert_eq]
  · simp

theorem batchDelta_failed_count (post : Post) (num : Nat) (b : List PSLink) :
    (batchDelta post num b).1.failed = (b.countP (fun r => recordFails post b r) : Int) := by
  unfold batchDelta
  rcases h : post b with ⟨code, text⟩ | msg
  · by_cases hc : isOK code
    · have : ∀ r ∈ b, ¬(recordFails post b r = true) := by
        intro r _
        simp [recordFails, h, hc]
      simp [hc, List.countP_eq_zero.mpr this]
    · have hcong : b.countP (fun r => recordFails post b r) =
          b.countP (fun r => !indOk post r) := by
        refine List.countP_congr ?_
        intro r _
        simp [recordFails, h, hc]
      have hlen := List.length_eq_countP_add_countP (fun r => indOk post r) b
      have hneg : (b.countP fun a => decide ¬(indOk post a) = true) =
          b.countP (fun r => !indOk post r) := by
        refine List.countP_congr ?_
        intro r _
        simp
      rw [hneg] at hlen
      rw [Bool.not_eq_true] at hc
      simp [hc, individual_insert_eq, hcong]
      omega
  · simp [recordFails, h, List.countP_true]

theorem batchDelta_entry_mem (post : Post) (num : Nat) (b : List PSLink)
    (i : Nat) (r : PSLink) (hi : b[i]? = some r)
    (hf : recordFails post b r = true) :
    entryFor post num b i r ∈ (batchDelta post num b).1.errors := by
  unfold batchDelta entryFor
  rcases h : post b with ⟨code, text⟩ | msg
  · have hc : isOK code = false := by
      by_contra hcc
      simp [recordFails, h] at hf
      rw [Bool.not_eq_false] at hcc
      exact absurd hf.1 (by simp [hcc])
    have hr : indOk post r = false := by
      simp [recordFails, h, hc] at hf
      exact hf
    have hmem := indEntry_mem_indErrs post b 1 i r hi hr
    have harith : 1 + i = i + 1 := by omega
    rw [harith] at hmem
    simp [hc, individual_insert_eq]
    exact Or.inr hmem
  · simp

theorem batchDeltas_success_failed (post : Post) :
    ∀ (chunks : List (List PSLink)) (num : Nat),
    ((batchDeltas post num chunks).1.success : Int) +
      (batchDeltas post num chunks).1.failed =
      ((chunks.map List.length).sum : Int)
  | [], num => by simp [batchDeltas]
  | b :: rest, num => by
      have ih := batchDeltas_success_failed post rest (num + 1)
      have hb := batchDelta_success_failed post num b
      simp only [batchDeltas, addResults, List.map_cons, List.sum_cons]
      push_cast at ih hb ⊢
      omega

theorem batchDeltas_failed_count (post : Post) :
    ∀ (chunks : List (List PSLink)) (num : Nat),
    (batchDeltas post num chunks).1.failed =
      ((chunks.map (fun b => b.countP (fun r => recordFails post b r))).sum : Int)
  | [], num => by simp [batchDeltas]
  | b :: rest, num => by
      have ih := batchDeltas_failed_count post rest (num + 1)
      have hb := batchDelta_failed_count post num b
      simp only [batchDeltas, addResults, List.map_cons, List.sum_cons]
      push_cast at ih hb ⊢
      omega

theorem batchDeltas_entry_mem (post : Post) :
    ∀ (chunks : List (List PSLink)) (num j : Nat) (b : List PSLink)
      (i : Nat) (r : PSLink),
      chunks[j]? = some b → b[i]? = some r → recordFails post b r = true →
      entryFor post (num + j) b i r ∈ (batchDeltas post num chunks).1.errors
  | [], _, j, _, _, _, hj, _, _ => by simp at hj
  | c :: rest, num, 0, b, i, r, hj, hi, hf => by
      simp only [List.getElem?_cons_zero, Option.some.injEq] at hj
      subst hj
      have hmem := batchDelta_entry_mem post num c i r hi hf
      simp only [batchDeltas, addResults, Nat.add_zero]
      exact List.mem_append_left _ hmem
  | c :: rest, num, j + 1, b, i, r, hj, hi, hf => by
      simp only [List.getElem?_cons_succ] at hj
      have ih := batchDeltas_entry_mem post rest (num + 1) j b i r hj hi hf
      have harith : num + 1 + j = num + (j + 1) := by omega
      rw [harith] at ih
      simp only [batchDeltas, addResults]
      exact List.mem_append_right _ ih

theorem batchDelta_trace (post : Post) (num : Nat) (b : List PSLink) :
    (batchDelta post num b).2 = batchTrace post b := by
  unfold batchDelta batchTrace
  rcases h : post b with ⟨code, text⟩ | msg
  · by_cases hc : isOK code
    · simp [hc]
    · simp [hc, individual_insert_eq]
  · simp

theorem batchDeltas_trace (post : Post) :
    ∀ (chunks : List (List PSLink)) (num : Nat),
    (batchDeltas post num chunks).2 = chunks.flatMap (batchTrace post)
  | [], num => by simp [batchDeltas]
  | b :: rest, num => by
      have ih := batchDeltas_trace post rest (num + 1)
      simp [batchDeltas, ih, batchDelta_trace, List.flatMap_cons]

theorem chunkList_length_sum (n : Nat) (hn : 0 < n) (links : List PSLink) :
    ((chunkList n links).map List.length).sum = links.length := by
  have := chunkList_flatten n hn links
  calc ((chunkList n links).map List.length).sum
      = (chunkList n links).flatten.length := (List.length_flatten _).symm
    _ = links.length := by rw [this]

/-! ## Extractor (`extract_unread_links.py`)

A source file is modelled as the list of rows `csv.reader` yields plus an
optional read-error position: `errAfter = some k` means the iteration
raises an exception after yielding `k` data rows (for example a
`csv.Error` on an oversized field, or an I/O error); `errAfter = none`
means the file is read to the end without error. -/

/-- One record appended to `unread_links` (lines 55-62). -/
structure UnreadLink where
  title : String
  url : String
  time_added : String
  tags : String
  status : String
  source_file : String
deriving DecidableEq, Repr

/-- The body of the row loop that may retain a row (lines 51-63):
`title, url, time_added, tags, status = row[:5]`, retained when
`status.strip() == 'unread'`, all fields stripped, plus the source file
name. -/
def processRow (csv_file : String) (row : List String) : Option UnreadLink :=
  if 5 ≤ row.length then
    match row.take 5 with
    | [title, url, time_added, tags, status] =>
      if pyStrip status == "unread" then
        some { title := pyStrip title, url := pyStrip url,
               time_added := pyStrip time_added, tags := pyStrip tags,
               status := pyStrip status, source_file := csv_file }
      else none
    | _ => none
  else none

/-- One iteration of the row loop (lines 50-73): first component is the
retained record (if any), second the row number logged as a warning (if
any).  The `elif len(row) == 1 and row[0].strip() == 'unread': continue`
branch skips the warning check, and the warning check itself requires
`len(row) < 5 and len(row) > 0` and `row_num <= 10`. -/
def rowStep (csv_file : String) (row_num : Nat) (row : List String) :
    Option UnreadLink × Option Nat :=
  if 5 ≤ row.length then
    (processRow csv_file row,
     if row.length < 5 ∧ 0 < row.length ∧ row_num ≤ 10 then some row_num else none)
  else if row.length = 1 ∧ pyStrip (row.headD "") == "unread" then
    (none, none)
  else
    (none,
     if row.length < 5 ∧ 0 < row.length ∧ row_num ≤ 10 then some row_num else none)

/-- The row loop `for row_num, row in enumerate(reader, 1)` over the data
rows, accumulating retained links, the `file_unread` counter, and the
warned row numbers. -/
def extractRowsLoop (csv_file : String) (row_num : Nat) :
    List (List String) → List UnreadLink × Nat × List Nat
  | [] => ([], 0, [])
  | row :: rest =>
    let s := rowStep csv_file row_num row
    let r := extractRowsLoop csv_file (row_num + 1) rest
    (s.1.toList ++ r.1,
     (if s.1.isSome then 1 else 0) + r.2.1,
     s.2.toList ++ r.2.2)

/-- Result of processing one source file. -/
structure FileResult where
  links : List UnreadLink
  file_unread : Nat
  warnings : List Nat
  errored : Bool
deriving DecidableEq, Repr

/-- Processing of one file (lines 33-77).  An empty file raises
`StopIteration` on the header read, which the inner handler turns into
`continue` (no records, no error).  A blank first row makes `header[0]`
raise `IndexError`, caught by the outer handler.  Otherwise the first row
is dropped iff its first field equals `"title"`; the data rows are then
scanned, stopping after `errAfter` rows if a read error occurs (the outer
`except` catches it and `continue`s, keeping whatever was already
appended). -/
def processFile (csv_file : String) (rows : List (List String))
    (errAfter : Option Nat) : FileResult :=
  match rows with
  | [] => ⟨[], 0, [], false⟩
  | first :: rest =>
    if first.length = 0 then ⟨[], 0, [], true⟩
    else
      let data := if first.headD "" == "title" then rest else first :: rest
      let limit := match errAfter with
        | none => data.length
        | some k => min k data.length
      let r := extractRowsLoop csv_file 1 (data.take limit)
      ⟨r.1, r.2.1, r.2.2, errAfter.isSome⟩

/-- One source file as presented to the extractor: its name, whether
`os.path.exists` holds, its parsed rows, and the read-error position. -/
structure ExtFile where
  name : String
  present : Bool
  rows : List (List String)
  errAfter : Option Nat
deriving DecidableEq, Repr

/-- The main loop of `extract_unread_links` (lines 22-80): missing files
are skipped; for each processed file the retained records are appended to
`unread_links` as they are found, but `total_unread += file_unread`
(line 80) is skipped by the `continue` in the error handler, so an
errored file contributes nothing to the total even though its
already-appended records remain. -/
def extractStep (acc : List UnreadLink × Nat) (file : ExtFile) :
    List UnreadLink × Nat :=
  if file.present then
    let r := processFile file.name file.rows file.errAfter
    (acc.1 ++ r.links, acc.2 + (if r.errored then 0 else r.file_unread))
  else acc

def extract_unread_links (files : List ExtFile) : List UnreadLink × Nat :=
  files.foldl extractStep ([], 0)

/-- The fixed header row written to `pocket_unread_links.csv` (line 93). -/
def outputHeader : List String :=
  ["title", "url", "time_added", "tags", "status", "source_file"]

/-- The row written for one retained record (lines 97-104). -/
def serializeLink (l : UnreadLink) : List String :=
  [l.title, l.url, l.time_added, l.tags, l.status, l.source_file]

/-- The output-file write (lines 86-106): guarded by `if unread_links:`,
so nothing is written at all when no records were retained; otherwise the
header row followed by one row per retained record. -/
def writeOutput (unread_links : List UnreadLink) : Option (List (List String)) :=
  if unread_links.isEmpty then none
  else some (outputHeader :: unread_links.map serializeLink)

/-! ## Importer: CSV loading and the import driver -/

/-- `load_pocket_csv` (`import_to_psreadthis.py` lines 150-168) over the
(possibly absent) output file, modelled as rows.  `csv.DictReader` takes
the first row as field names; `row['status'] == 'unread'` keeps a row.
An unreadable file (here: `none`) raises, is caught, and yields `[]`; a
file without rows yields `[]`.  A data row shorter than the header gives
the missing keys the value `None` (never equal to `'unread'`), modelled
by the `""` default. -/
def load_pocket_csv (file : Option (List (List String))) : List (List String) :=
  match file with
  | none => []
  | some [] => []
  | some (hdr :: body) =>
    if "status" ∈ hdr then
      body.filter (fun row => row.getD (hdr.indexOf "status") "" == "unread")
    else []

/-! ### Derived characterizations of the extractor -/

/-- The condition under which the row loop logs a warning for a row:
fewer than 5 but more than 0 fields, not the single-field `'unread'`
special case, and — crucially — the row's 1-based position among the data
rows is at most 10. -/
def warnPred (row : List String) (row_num : Nat) : Bool :=
  decide (row.length < 5) && decide (0 < row.length) &&
    !(row.length == 1 && (pyStrip (row.headD "") == "unread")) && decide (row_num ≤ 10)

theorem processRow_eq (csv_file : String) (row : List String) :
    processRow csv_file row =
      if 5 ≤ row.length ∧ pyStrip (row.getD 4 "") == "unread" then
        some { title := pyStrip (row.getD 0 ""), url := pyStrip (row.getD 1 ""),
               time_added := pyStrip (row.getD 2 ""), tags := pyStrip (row.getD 3 ""),
               status := pyStrip (row.getD 4 ""), source_file := csv_file }
      else none := by
  rcases row with _ | ⟨a, _ | ⟨b, _ | ⟨c, _ | ⟨d, _ | ⟨e, rest⟩⟩⟩⟩⟩ <;>
    simp [processRow, List.getD_cons_succ, List.getD_cons_zero, Nat.le_add_left]

theorem rowStep_fst (csv_file : String) (row_num : Nat) (row : List String) :
    (rowStep csv_file row_num row).1 = processRow csv_file row := by
  unfold rowStep
  by_cases h5 : 5 ≤ row.length
  · simp [h5]
  · rw [if_neg h5, processRow_eq,
      if_neg (fun hh : 5 ≤ row.length ∧ _ => h5 hh.1)]
    split
    · rfl
    · rfl

theorem rowStep_snd (csv_file : String) (row_num : Nat) (row : List String) :
    (rowStep csv_file row_num row).2 =
      if warnPred row row_num then some row_num else none := by
  unfold rowStep warnPred
  by_cases h5 : 5 ≤ row.length
  · have hnlt : ¬ row.length < 5 := by omega
    simp [h5, hnlt]
  · have hlt : row.length < 5 := by omega
    by_cases hl1 : row.length = 1 <;>
      by_cases hu : pyStrip (row.headD "") = "unread" <;>
      by_cases h0 : 0 < row.length <;>
      by_cases h10 : row_num ≤ 10 <;>
      simp [h5, hlt, hl1, hu, h0, h10] <;>
      (split <;> rfl)

theorem extractRowsLoop_links (csv_file : String) :
    ∀ (rows : List (List String)) (row_num : Nat),
    (extractRowsLoop csv_file row_num rows).1 =
      rows.filterMap (processRow csv_file)
  | [], _ => by simp [extractRowsLoop]
  | row :: rest, n => by
      have ih := extractRowsLoop_links csv_file rest (n + 1)
      simp only [extractRowsLoop, ih, rowStep_fst, List.filterMap_cons]
      cases h : processRow csv_file row <;> simp [h]

theorem extractRowsLoop_count (csv_file : String) :
    ∀ (rows : List (List String)) (row_num : Nat),
    (extractRowsLoop csv_file row_num rows).2.1 =
      (extractRowsLoop csv_file row_num rows).1.length
  | [], _ => by simp [extractRowsLoop]
  | row :: rest, n => by
      have ih := extractRowsLoop_count csv_file rest (n + 1)
      simp only [extractRowsLoop, List.length_append, ih]
      cases h : (rowStep csv_file n row).1 <;> simp [h]

theorem extractRowsLoop_warnings (csv_file : String) :
    ∀ (rows : List (List String)) (row_num : Nat),
    (extractRowsLoop csv_file row_num rows).2.2 =
      (List.enumFrom row_num rows).filterMap
        (fun p => if warnPred p.2 p.1 then some p.1 else none)
  | [], _ => by simp [extractRowsLoop]
  | row :: rest, n => by
      have ih := extractRowsLoop_warnings csv_file rest (n + 1)
      simp only [extractRowsLoop, ih, List.enumFrom, List.filterMap_cons, rowStep_snd]
      by_cases h : warnPred row n = true <;> simp [h]

theorem processFile_count (csv_file : String) (rows : List (List String))
    (errAfter : Option Nat) :
    (processFile csv_file rows errAfter).file_unread =
      (processFile csv_file rows errAfter).links.length := by
  unfold processFile
  rcases rows with _ | ⟨first, rest⟩
  · rfl
  · by_cases h0 : first.length = 0 <;> simp [h0, extractRowsLoop_count]

theorem processFile_none_errored (csv_file : String) (rows : List (List String)) :
    (processFile csv_file rows none).errored = true →
      (processFile csv_file rows none).links = [] := by
  unfold processFile
  rcases rows with _ | ⟨first, rest⟩
  · intro h; simp at h
  · by_cases h0 : first.length = 0 <;> simp [h0]

theorem processFile_mem (csv_file : String) (rows : List (List String))
    (errAfter : Option Nat) (l : UnreadLink)
    (hl : l ∈ (processFile csv_file rows errAfter).links) :
    l.source_file = csv_file ∧ l.status = "unread" := by
  have hrow : ∃ row, processRow csv_file row = some l := by
    unfold processFile at hl
    rcases rows with _ | ⟨first, rest⟩
    · simp at hl
    · by_cases h0 : first.length = 0
      · simp [h0] at hl
      · simp only [h0, if_false, extractRowsLoop_links] at hl
        rcases List.mem_filterMap.mp hl with ⟨row, _, hr⟩
        exact ⟨row, hr⟩
  rcases hrow with ⟨row, hr⟩
  rw [processRow_eq] at hr
  by_cases hc : 5 ≤ row.length ∧ (pyStrip (row.getD 4 "") == "unread") = true
  · rw [if_pos hc] at hr
    have hstat : pyStrip (row.getD 4 "") = "unread" := eq_of_beq hc.2
    cases hr
    refine ⟨rfl, ?_⟩
    simpa [List.getD] using hstat
  · rw [if_neg hc] at hr
    exact absurd hr (by simp)

theorem extractStep_decomp (acc : List UnreadLink × Nat) (file : ExtFile) :
    extractStep acc file =
      (acc.1 ++ (extractStep ([], 0) file).1, acc.2 + (extractStep ([], 0) file).2) := by
  unfold extractStep
  by_cases h : file.present = true <;> simp [h]

theorem extract_go_decomp :
    ∀ (files : List ExtFile) (acc : List UnreadLink × Nat),
    files.foldl extractStep acc =
      (acc.1 ++ (extract_unread_links files).1, acc.2 + (extract_unread_links files).2)
  | [], acc => by simp [extract_unread_links]
  | f :: fs, acc => by
      have ih := extract_go_decomp fs
      simp only [extract_unread_links, List.foldl_cons]
      rw [ih (extractStep acc f), ih (extractStep ([], 0) f)]
      rw [extractStep_decomp acc f]
      refine Prod.ext ?_ ?_
      · simp [List.append_assoc]
      · simp [Nat.add_assoc]

theorem extract_cons (f : ExtFile) (files : List ExtFile) :
    extract_unread_links (f :: files) =
      ((extractStep ([], 0) f).1 ++ (extract_unread_links files).1,
       (extractStep ([], 0) f).2 + (extract_unread_links files).2) := by
  show (f :: files).foldl extractStep ([], 0) = _
  simp only [List.foldl_cons]
  rw [extract_go_decomp files (extractStep ([], 0) f)]

theorem extract_append (fs1 fs2 : List ExtFile) :
    extract_unread_links (fs1 ++ fs2) =
      ((extract_unread_links fs1).1 ++ (extract_unread_links fs2).1,
       (extract_unread_links fs1).2 + (extract_unread_links fs2).2) := by
  show (fs1 ++ fs2).foldl extractStep ([], 0) = _
  rw [List.foldl_append]
  exact extract_go_decomp fs2 (extract_unread_links fs1)

theorem extract_mem (files : List ExtFile) (l : UnreadLink)
    (hl : l ∈ (extract_unread_links files).1) :
    (∃ f ∈ files, f.present = true ∧ l.source_file = f.name) ∧ l.status = "unread" := by
  induction files with
  | nil => simp [extract_unread_links] at hl
  | cons f fs ih =>
    rw [extract_cons] at hl
    rcases List.mem_append.mp hl with hhead | htail
    · unfold extractStep at hhead
      by_cases hp : f.present = true
      · simp only [hp, if_true] at hhead
        simp only [List.nil_append] at hhead
        have := processFile_mem f.name f.rows f.errAfter l hhead
        exact ⟨⟨f, List.mem_cons_self f fs, hp, this.1⟩, this.2⟩
      · simp [hp] at hhead
    · have := ih htail
      rcases this with ⟨⟨g, hg, hgp, hgs⟩, hstat⟩
      exact ⟨⟨g, List.mem_cons_of_mem f hg, hgp, hgs⟩, hstat⟩

theorem extract_total (files : List ExtFile)
    (h : ∀ f ∈ files, f.errAfter = none) :
    (extract_unread_links files).2 = (extract_unread_links files).1.length := by
  induction files with
  | nil => simp [extract_unread_links]
  | cons f fs ih =>
    have hf : f.errAfter = none := h f (List.mem_cons_self f fs)
    have hrest : ∀ g ∈ fs, g.errAfter = none :=
      fun g hg => h g (List.mem_cons_of_mem f hg)
    rw [extract_cons]
    simp only [List.length_append]
    rw [ih hrest]
    have hstep : (extractStep ([], 0) f).2 = (extractStep ([], 0) f).1.length := by
      unfold extractStep
      by_cases hp : f.present = true
      · simp only [hp, if_true, List.nil_append, Nat.zero_add]
        by_cases he : (processFile f.name f.rows f.errAfter).errored = true
        · have : (processFile f.name f.rows f.errAfter).links = [] := by
            rw [hf] at he ⊢
            exact processFile_none_errored f.name f.rows he
          simp [he, this]
        · simp only [Bool.not_eq_true] at he
          simp [he, processFile_count]
      · simp [hp]
    omega

theorem load_writeOutput (links : List UnreadLink)
    (h : ∀ l ∈ links, l.status = "unread") :
    (load_pocket_csv (writeOutput links)).length = links.length := by
  rcases links with _ | ⟨l, rest⟩
  · rfl
  · have hne : ¬ (l :: rest).isEmpty = true := by simp
    unfold writeOutput
    rw [if_neg hne]
    unfold load_pocket_csv
    have hmem : "status" ∈ outputHeader := by decide
    have hidx : outputHeader.indexOf "status" = 4 := by decide
    simp only [hmem, if_true, hidx]
    have hkeep : ∀ row ∈ (l :: rest).map serializeLink,
        (row.getD 4 "" == "unread") = true := by
      intro row hrow
      rcases List.mem_map.mp hrow with ⟨x, hx, hser⟩
      subst hser
      have : x.status = "unread" := h x hx
      simp [serializeLink, List.getD_cons_succ, List.getD_cons_zero, this]
    rw [List.filter_eq_self.mpr hkeep]
    simp

/-! ## Importer: timestamp conversion (`unix_to_iso`, lines 30-39)

`datetime.fromtimestamp` converts epoch seconds to **local** civil time;
the platform local-time offset from UTC (in seconds) is the parameter
`tzoff`.  CPython semantics on a 64-bit Unix platform: converting the
argument to C `time_t` raises `OverflowError` outside
`[-2^63, 2^63 - 1]`; within that range a result whose year falls outside
`datetime`'s range 1..9999 raises `ValueError` (or the C `localtime`
fails with `OSError`) — the source's handler catches `ValueError` and
`OSError` but **not** `OverflowError`. -/

/-- A `datetime` value (date and time-of-day fields). -/
structure PyDateTime where
  year : Int
  month : Int
  day : Int
  hour : Int
  minute : Int
  second : Int
deriving DecidableEq, Repr

/-- Proleptic-Gregorian date from days since 1970-01-01 (the standard
era-based civil-from-days computation, floor divisions throughout). -/
def civilFromDays (z0 : Int) : Int × Int × Int :=
  let z := z0 + 719468
  let era := Int.ediv z 146097
  let doe := z - era * 146097
  let yoe := Int.ediv (doe - Int.ediv doe 1460 + Int.ediv doe 36524 - Int.ediv doe 146096) 365
  let y := yoe + era * 400
  let doy := doe - (365 * yoe + Int.ediv yoe 4 - Int.ediv yoe 100)
  let mp := Int.ediv (5 * doy + 2) 153
  let d := doy - Int.ediv (153 * mp + 2) 5 + 1
  let m := mp + (if mp < 10 then 3 else -9)
  (y + (if m ≤ 2 then 1 else 0), m, d)

/-- Civil date-time from seconds since the epoch (already shifted to the
local timezone). -/
def secondsToDateTime (s : Int) : PyDateTime :=
  let days := Int.ediv s 86400
  let rem := Int.emod s 86400
  let c := civilFromDays days
  { year := c.1, month := c.2.1, day := c.2.2,
    hour := Int.ediv rem 3600,
    minute := Int.ediv (Int.emod rem 3600) 60,
    second := Int.emod rem 60 }

/-- Exceptions `datetime.fromtimestamp` can raise, split by whether the
source's `except (ValueError, OSError)` handler catches them. -/
inductive PyTsError where
  | overflowError
  | caughtError
deriving DecidableEq, Repr

/-- `2^63 - 1`, the largest C `time_t` on a 64-bit platform. -/
def TIME_T_MAX : Int := 9223372036854775807

/-- `-2^63`, the smallest C `time_t` on a 64-bit platform. -/
def TIME_T_MIN : Int := -9223372036854775808

/-- `datetime.fromtimestamp(t)` under local offset `tzoff`, per the
CPython semantics described above. -/
def fromtimestamp (tzoff : Int) (t : Int) : Except PyTsError PyDateTime :=
  if t < TIME_T_MIN ∨ TIME_T_MAX < t then .error .overflowError
  else
    let dt := secondsToDateTime (t + tzoff)
    if dt.year < 1 ∨ 9999 < dt.year then .error .caughtError
    else .ok dt

/-- Two-digit zero-padded field of `isoformat`. -/
def pad2 (n : Int) : String :=
  if n < 10 then "0" ++ toString n else toString n

/-- Four-digit zero-padded year of `isoformat`. -/
def pad4 (y : Int) : String :=
  if y < 10 then "000" ++ toString y
  else if y < 100 then "00" ++ toString y
  else if y < 1000 then "0" ++ toString y
  else toString y

/-- `dt.isoformat()` for a whole-second `datetime`:
`YYYY-MM-DDTHH:MM:SS`. -/
def isoformatDT (dt : PyDateTime) : String :=
  pad4 dt.year ++ "-" ++ pad2 dt.month ++ "-" ++ pad2 dt.day ++ "T" ++
    pad2 dt.hour ++ ":" ++ pad2 dt.minute ++ ":" ++ pad2 dt.second

/-- Result of a call to `unix_to_iso`: a returned string, or an
uncaught `OverflowError` propagating to the caller. -/
inductive UnixToIsoResult where
  | ok (s : String)
  | raisedOverflow
deriving DecidableEq, Repr

/-- `unix_to_iso` (lines 30-39).  The guard is
`unix_timestamp and unix_timestamp.isdigit()`; `int(unix_timestamp)` is
`pyInt`.  `datetime.now().isoformat()` is the parameter `nowIso`.  A
caught `ValueError`/`OSError` falls through to the fallback return. -/
def unix_to_iso (tzoff : Int) (nowIso : String) (unix_timestamp : String) :
    UnixToIsoResult :=
  if pyIsDigit unix_timestamp then
    match fromtimestamp tzoff (pyInt unix_timestamp : Int) with
    | .ok dt => .ok (isoformatDT dt ++ "+00:00")
    | .error .overflowError => .raisedOverflow
    | .error .caughtError => .ok (nowIso ++ "+00:00")
  else .ok (nowIso ++ "+00:00")

/-! ## Importer: the `import_links` driver (lines 182-234) -/

/-- How a run of `import_links` ends.  `cancelled` is the early `return`
after the confirmation prompt: no `results` dict is ever created and no
POST is issued.  `imported` carries the final `results` dict of
`batch_insert` and the POST bodies issued. -/
inductive ImportOutcome where
  | noConnection
  | noLinks
  | cancelled
  | imported (results : Results) (requests : List (List PSLink))
deriving DecidableEq, Repr

/-- The POST bodies a run issued (none on any early return). -/
def requestsOf : ImportOutcome → List (List PSLink)
  | .imported _ reqs => reqs
  | _ => []

/-- `import_links` (lines 182-234).  `connOk` is the outcome of
`test_connection` (a GET probe); `pocket_links` the rows
`load_pocket_csv` returned; `convert` models `prepare_link_data`, whose
`uuid.uuid4()` and `datetime.now()` make it nondeterministic — the batch
phase is insensitive to the produced fields.  The prompt answer is
`input(...).strip().lower()` compared against `'y'`. -/
def import_links (post : Post) (connOk : Bool) (pocket_links : List (List String))
    (convert : List String → PSLink) (userInput : String) : ImportOutcome :=
  if !connOk then .noConnection
  else if pocket_links.isEmpty then .noLinks
  else
    let psreadthis_links := pocket_links.map convert
    if pyLower (pyStrip userInput) != "y" then .cancelled
    else
      let r := batch_insert post psreadthis_links 50
      .imported r.1 r.2

/-! ## Concrete inputs used by counterexamples and witnesses -/

/-- A sample converted record. -/
def l0 : PSLink :=
  { id := "id-0", user_id := "user-0", raw_url := "http://example.com/a",
    resolved_url := none, title := none, list := "read", status := "unread",
    device_saved := "import_script", created_at := "1970-01-01T00:00:00+00:00" }

/-- A sample converted record whose individual send is rejected. -/
def lBad : PSLink :=
  { id := "id-1", user_id := "user-0", raw_url := "http://example.com/b",
    resolved_url := none, title := none, list := "read", status := "unread",
    device_saved := "import_script", created_at := "1970-01-01T00:00:00+00:00" }

/-- A session whose every request raises a transport exception. -/
def postExnAll : Post := fun _ => .exn "Connection reset by peer"

/-- A session that rejects multi-record bodies with HTTP 500, rejects the
individual send of `lBad` with HTTP 400, and accepts other singletons. -/
def postMixed : Post := fun body =>
  if body.length == 1 then
    (if body = [lBad] then .resp 400 "Bad Request" else .resp 201 "Created")
  else .resp 500 "Internal Server Error"

/-- A session that accepts everything. -/
def post201 : Post := fun _ => .resp 201 "Created"

/-- Data rows from the spec's scenario. -/
def rowA : List String := ["A", "http://x", "100", "", "unread"]

def rowB : List String := ["B", "http://y", "not-a-number", "", "unread"]

def rowC : List String := ["C", "http://z", "200", "", "read"]

/-- A present file whose read raises after its single (retained) data row. -/
def fErr : ExtFile :=
  { name := "part_000000.csv", present := true, rows := [rowA], errAfter := some 1 }

/-- A present, error-free file whose only row has status `read`. -/
def fRead : ExtFile :=
  { name := "part_000000.csv", present := true, rows := [rowC], errAfter := none }

/-- A present, error-free file with the spec's three scenario rows. -/
def fGood : ExtFile :=
  { name := "part_000001.csv", present := true, rows := [rowA, rowB, rowC],
    errAfter := none }

/-- Ten well-formed data rows followed by a malformed one at position 11. -/
def rows9 : List (List String) :=
  [rowA, rowA, rowA, rowA, rowA, rowA, rowA, rowA, rowA, rowA, ["x"]]

/-- Loaded rows for the import driver. -/
def demoRows : List (List String) := [["t", "u", "100", "", "unread", "f"]]

/-- A conversion stand-in for `prepare_link_data`. -/
def convert0 : List String → PSLink := fun _ => l0

/-! ## Claims -/

/-- C1, counterexample: when the batched POST raises a transport
exception, the code does **not** fall back to individual sends — the only
request issued for the group `[l0]` is the batch request itself, not the
batch request followed by one individual request per record as the claim
requires. -/
theorem claim_C1_counterexample :
    postExnAll [l0] = .exn "Connection reset by peer" ∧
    (batch_insert postExnAll [l0] 50).2 = [[l0]] ∧
    (batch_insert postExnAll [l0] 50).2 ≠ [[l0], [l0]] := by decide

/-- C1 (amended): per group, the request trace is the batch request alone
on a 2xx response **or a transport exception**, and the batch request
followed by exactly one individual request per record on a non-2xx
response; so the individual fallback fires exactly once per
failure-response group and never for exception groups, and individually
failed records are not retried (each record occurs in exactly one
individual request). -/
theorem claim_C1_fallback_policy (post : Post) (links : List PSLink)
    (batch_size : Nat) (_hpos : 0 < batch_size) :
    (batch_insert post links batch_size).2 =
      (chunkList batch_size links).flatMap (batchTrace post) := by
  rw [batch_insert_eq]
  exact batchDeltas_trace post (chunkList batch_size links) 1

theorem claim_C1_fallback_policy_witness :
    0 < 50 ∧
    (batch_insert postMixed [l0, lBad] 50).2 =
      (chunkList 50 [l0, lBad]).flatMap (batchTrace postMixed) :=
  ⟨by decide, claim_C1_fallback_policy postMixed [l0, lBad] 50 (by decide)⟩

/-- C2: the final counters satisfy `success + failed = N`; the `failed`
counter equals the number of records that actually failed (batch in a 2xx
group: none; fallback group: those whose individual send got no 2xx;
exception group: all); and every failed record has a corresponding entry
in the accumulated error list — its own individual-failure entry naming
its URL when its group fell back, or its group's single exception entry. -/
theorem claim_C2_accounting (post : Post) (links : List PSLink)
    (batch_size : Nat) (hpos : 0 < batch_size) :
    (((batch_insert post links batch_size).1.success : Int) +
        (batch_insert post links batch_size).1.failed = links.length) ∧
    ((batch_insert post links batch_size).1.failed =
      (((chunkList batch_size links).map
          (fun b => b.countP (fun r => recordFails post b r))).sum : Int)) ∧
    (∀ (j : Nat) (b : List PSLink), (chunkList batch_size links)[j]? = some b →
      ∀ (i : Nat) (r : PSLink), b[i]? = some r → recordFails post b r = true →
        entryFor post (j + 1) b i r ∈ (batch_insert post links batch_size).1.errors) := by
  refine ⟨?_, ?_, ?_⟩
  · rw [batch_insert_eq]
    show ((batchDeltas post 1 (chunkList batch_size links)).1.success : Int) + _ = _
    rw [batchDeltas_success_failed post (chunkList batch_size links) 1,
      chunkList_length_sum batch_size hpos links]
  · rw [batch_insert_eq]
    exact batchDeltas_failed_count post (chunkList batch_size links) 1
  · intro j b hj i r hi hf
    rw [batch_insert_eq]
    have hmem := batchDeltas_entry_mem post (chunkList batch_size links) 1 j b i r hj hi hf
    have harith : 1 + j = j + 1 := by omega
    rw [harith] at hmem
    exact hmem

theorem claim_C2_accounting_witness :
    0 < 50 ∧
    ((((batch_insert postMixed [l0, lBad] 50).1.success : Int) +
        (batch_insert postMixed [l0, lBad] 50).1.failed =
        ([l0, lBad] : List PSLink).length) ∧
     ((batch_insert postMixed [l0, lBad] 50).1.failed =
       (((chunkList 50 [l0, lBad]).map
           (fun b => b.countP (fun r => recordFails postMixed b r))).sum : Int)) ∧
     (∀ (j : Nat) (b : List PSLink), (chunkList 50 [l0, lBad])[j]? = some b →
       ∀ (i : Nat) (r : PSLink), b[i]? = some r → recordFails postMixed b r = true →
         entryFor postMixed (j + 1) b i r ∈
           (batch_insert postMixed [l0, lBad] 50).1.errors)) :=
  ⟨by decide, claim_C2_accounting postMixed [l0, lBad] 50 (by decide)⟩

/-- C3: the timestamp conversion is **not** total — for the valid digit
string `"100000000000000000000"` (`10^20`, beyond the platform `time_t`
range) `datetime.fromtimestamp` raises `OverflowError`, which the
handler `except (ValueError, OSError)` does not catch, so `unix_to_iso`
raises instead of returning the documented current-time fallback. -/
theorem claim_C3_overflow_raises (tzoff : Int) (nowIso : String) :
    unix_to_iso tzoff nowIso "100000000000000000000" = .raisedOverflow := by
  have hd : pyIsDigit "100000000000000000000" = true := by decide
  have hv : pyInt "100000000000000000000" = 100000000000000000000 := by decide
  have hover : fromtimestamp tzoff (pyInt "100000000000000000000" : Int) =
      .error .overflowError := by
    rw [hv]
    have hcond : ((100000000000000000000 : Nat) : Int) < TIME_T_MIN ∨
        TIME_T_MAX < ((100000000000000000000 : Nat) : Int) :=
      Or.inr (by norm_num [TIME_T_MAX])
    simp only [fromtimestamp]
    rw [if_pos hcond]
  unfold unix_to_iso
  rw [if_pos hd, hover]

/-- C4, counterexample: `"253402300800000"` is a valid non-negative
integer string, but its conversion returns the current-time fallback
(the epoch value's local year exceeds 9999, so `fromtimestamp` raises a
caught `ValueError`), not the epoch rendering the claim requires. -/
theorem claim_C4_counterexample :
    unix_to_iso 0 "2026-01-01T00:00:00" "253402300800000" =
      .ok ("2026-01-01T00:00:00" ++ "+00:00") ∧
    UnixToIsoResult.ok ("2026-01-01T00:00:00" ++ "+00:00") ≠
      .ok (isoformatDT (secondsToDateTime ((253402300800000 : Int) + 0)) ++ "+00:00") := by
  decide

/-- C4 (amended): for a valid non-negative integer string the result is
the epoch rendering (local civil time with `"+00:00"` appended) only when
the value's local calendar year lies in 1..9999; a digit string beyond
the `time_t` range raises (see C3), any other digit string and every
non-digit or empty input yields the current time with the same
`"+00:00"` suffix. -/
theorem claim_C4_conversion (tzoff : Int) (nowIso : String) (ts : String) :
    unix_to_iso tzoff nowIso ts =
      if pyIsDigit ts then
        if TIME_T_MAX < (pyInt ts : Int) then .raisedOverflow
        else if (secondsToDateTime ((pyInt ts : Int) + tzoff)).year < 1 ∨
            9999 < (secondsToDateTime ((pyInt ts : Int) + tzoff)).year then
          .ok (nowIso ++ "+00:00")
        else .ok (isoformatDT (secondsToDateTime ((pyInt ts : Int) + tzoff)) ++ "+00:00")
      else .ok (nowIso ++ "+00:00") := by
  unfold unix_to_iso
  by_cases hd : pyIsDigit ts = true
  · rw [if_pos hd, if_pos hd]
    have hmin : ¬ ((pyInt ts : Int) < TIME_T_MIN) := by
      unfold TIME_T_MIN; omega
    by_cases hmax : TIME_T_MAX < (pyInt ts : Int)
    · have hf : fromtimestamp tzoff (pyInt ts : Int) = .error .overflowError := by
        simp only [fromtimestamp]
        rw [if_pos (Or.inr hmax)]
      rw [hf, if_pos hmax]
    · have hcond : ¬ (((pyInt ts : Int) < TIME_T_MIN) ∨ TIME_T_MAX < (pyInt ts : Int)) :=
        not_or.mpr ⟨hmin, hmax⟩
      by_cases hyr : ((secondsToDateTime ((pyInt ts : Int) + tzoff)).year < 1 ∨
          9999 < (secondsToDateTime ((pyInt ts : Int) + tzoff)).year)
      · have hf : fromtimestamp tzoff (pyInt ts : Int) = .error .caughtError := by
          simp only [fromtimestamp]
          rw [if_neg hcond, if_pos hyr]
        rw [hf, if_neg hmax, if_pos hyr]
      · have hf : fromtimestamp tzoff (pyInt ts : Int) =
            .ok (secondsToDateTime ((pyInt ts : Int) + tzoff)) := by
          simp only [fromtimestamp]
          rw [if_neg hcond, if_neg hyr]
        rw [hf, if_neg hmax, if_neg hyr]
  · rw [if_neg hd, if_neg hd]

/-- C5: a data row is retained by the row loop iff it has at least 5
fields and its 5th field, trimmed, equals `"unread"`; the stored record
consists of the first five fields trimmed plus the source file name. -/
theorem claim_C5_row_filter (csv_file : String) (row_num : Nat) (row : List String) :
    (rowStep csv_file row_num row).1 =
      if 5 ≤ row.length ∧ pyStrip (row.getD 4 "") == "unread" then
        some { title := pyStrip (row.getD 0 ""), url := pyStrip (row.getD 1 ""),
               time_added := pyStrip (row.getD 2 ""), tags := pyStrip (row.getD 3 ""),
               status := pyStrip (row.getD 4 ""), source_file := csv_file }
      else none := by
  rw [rowStep_fst, processRow_eq]

/-- C6, counterexample: a run over one file whose read errors after its
single retained row — the extractor reports a total of 0, but the written
output file holds 1 record and the loader keeps it, so loader count 1 ≠
reported total 0. -/
theorem claim_C6_counterexample :
    (load_pocket_csv (writeOutput (extract_unread_links [fErr]).1)).length = 1 ∧
    (extract_unread_links [fErr]).2 = 0 := by decide

/-- C6 (amended): the loader's re-filter keeps every row the extractor
wrote, so the loaded count always equals the number of retained records;
and in runs where no per-file read error occurs this number also equals
the extractor's reported total. -/
theorem claim_C6_roundtrip (files : List ExtFile)
    (h : ∀ f ∈ files, f.errAfter = none) :
    (load_pocket_csv (writeOutput (extract_unread_links files).1)).length =
      (extract_unread_links files).1.length ∧
    (load_pocket_csv (writeOutput (extract_unread_links files).1)).length =
      (extract_unread_links files).2 := by
  have hstat : ∀ l ∈ (extract_unread_links files).1, l.status = "unread" :=
    fun l hl => (extract_mem files l hl).2
  have hload := load_writeOutput (extract_unread_links files).1 hstat
  exact ⟨hload, by rw [hload, extract_total files h]⟩

theorem claim_C6_roundtrip_witness :
    (∀ f ∈ [fGood], f.errAfter = none) ∧
    ((load_pocket_csv (writeOutput (extract_unread_links [fGood]).1)).length =
       (extract_unread_links [fGood]).1.length ∧
     (load_pocket_csv (writeOutput (extract_unread_links [fGood]).1)).length =
       (extract_unread_links [fGood]).2) :=
  ⟨by decide, claim_C6_roundtrip [fGood] (by decide)⟩

/-- C7, counterexample: a file erroring after its single retained row
contributes 0 to the reported total but its record **remains in the
retained record set**, contradicting the claim that an errored file
contributes zero records to the retained set. -/
theorem claim_C7_counterexample :
    (extract_unread_links [fErr]).2 = 0 ∧
    (extract_unread_links [fErr]).1 ≠ [] ∧
    (extract_unread_links [fErr]).1.length = 1 := by decide

/-- C7 (amended): a per-file read error is caught and processing
continues with the remaining files; the errored file contributes zero to
the reported total, but the records it retained before the error remain
in the retained record set. -/
theorem claim_C7_file_error (fs1 fs2 : List ExtFile) (f : ExtFile)
    (hp : f.present = true) (k : Nat) (hk : f.errAfter = some k) :
    (extract_unread_links (fs1 ++ f :: fs2)).1 =
      (extract_unread_links fs1).1 ++
        (processFile f.name f.rows f.errAfter).links ++
        (extract_unread_links fs2).1 ∧
    (extract_unread_links (fs1 ++ f :: fs2)).2 =
      (extract_unread_links fs1).2 + (extract_unread_links fs2).2 := by
  have hstep1 : (extractStep ([], 0) f).1 =
      (processFile f.name f.rows f.errAfter).links := by
    unfold extractStep
    simp [hp]
  have hstep2 : (extractStep ([], 0) f).2 = 0 := by
    unfold extractStep
    simp only [hp, if_true]
    unfold processFile
    rcases hrows : f.rows with _ | ⟨first, rest⟩
    · simp
    · by_cases h0 : first.length = 0
      · simp [h0]
      · simp [h0, hk]
  rw [extract_append fs1 (f :: fs2), extract_cons f fs2]
  constructor
  · simp [hstep1, List.append_assoc]
  · simp [hstep2]

theorem claim_C7_file_error_witness :
    fErr.present = true ∧ fErr.errAfter = some 1 ∧
    ((extract_unread_links ([] ++ fErr :: [])).1 =
       (extract_unread_links []).1 ++
         (processFile fErr.name fErr.rows fErr.errAfter).links ++
         (extract_unread_links []).1 ∧
     (extract_unread_links ([] ++ fErr :: [])).2 =
       (extract_unread_links []).2 + (extract_unread_links []).2) :=
  ⟨by decide, by decide, claim_C7_file_error [] [] fErr (by decide) 1 (by decide)⟩

/-- C8, counterexample: a run retaining zero records (its only row has
status `read`) writes **no output file at all** — `writeOutput` yields
`none` — contradicting the claim that the header-led file is written even
when zero records are retained. -/
theorem claim_C8_counterexample :
    (extract_unread_links [fRead]).1 = [] ∧
    writeOutput (extract_unread_links [fRead]).1 = none := by decide

/-- C8 (amended): when at least one record is retained, the extractor
writes the file whose first row is exactly the fixed header
`title,url,time_added,tags,status,source_file` followed by one row per
retained record, each carrying as provenance the name of a present input
file it came from; when zero records are retained, no file is written. -/
theorem claim_C8_output (files : List ExtFile)
    (h : (extract_unread_links files).1 ≠ []) :
    writeOutput (extract_unread_links files).1 =
      some (outputHeader :: (extract_unread_links files).1.map serializeLink) ∧
    outputHeader = ["title", "url", "time_added", "tags", "status", "source_file"] ∧
    ∀ l ∈ (extract_unread_links files).1,
      ∃ f ∈ files, f.present = true ∧ l.source_file = f.name := by
  refine ⟨?_, rfl, ?_⟩
  · unfold writeOutput
    rw [if_neg (by simpa using h)]
  · intro l hl
    exact (extract_mem files l hl).1

theorem claim_C8_output_witness :
    (extract_unread_links [fGood]).1 ≠ [] ∧
    (writeOutput (extract_unread_links [fGood]).1 =
       some (outputHeader :: (extract_unread_links [fGood]).1.map serializeLink) ∧
     outputHeader = ["title", "url", "time_added", "tags", "status", "source_file"] ∧
     ∀ l ∈ (extract_unread_links [fGood]).1,
       ∃ f ∈ [fGood], f.present = true ∧ l.source_file = f.name) :=
  ⟨by decide, claim_C8_output [fGood] (by decide)⟩

/-- C9, counterexample: in a file whose rows 1..10 are well-formed and
whose row 11 is the **first** anomalous row (one nonempty field, not the
`'unread'` special case), no warning at all is logged — the code gates
warnings on the row's position (`row_num <= 10`), not on the count of
anomalies seen, so the claim's "first 10 such anomalous rows are logged"
fails. -/
theorem claim_C9_counterexample :
    (processFile "part_000000.csv" rows9 none).warnings = [] ∧
    rows9.getD 10 [] = ["x"] ∧
    (∀ j, j < 10 → (rows9.getD j []).length = 5) := by decide

/-- C9 (amended): rows with fewer than 5 fields are never retained (and
the loop never raises on them, being total); a nonempty such row is
logged as a warning iff it is not a single-field row trimming to
`'unread'` **and its 1-based position among the data rows is at most
10** — the position, not the anomaly count, is what is limited. -/
theorem claim_C9_warnings (csv_file : String) (row : List String)
    (hshort : row.length < 5) (data : List (List String)) :
    processRow csv_file row = none ∧
    (extractRowsLoop csv_file 1 data).2.2 =
      (List.enumFrom 1 data).filterMap
        (fun p => if warnPred p.2 p.1 then some p.1 else none) := by
  refine ⟨?_, extractRowsLoop_warnings csv_file data 1⟩
  rw [processRow_eq]
  exact if_neg (fun hh => absurd hh.1 (by omega))

theorem claim_C9_warnings_witness :
    (["x"] : List String).length < 5 ∧
    (processRow "part_000000.csv" ["x"] = none ∧
     (extractRowsLoop "part_000000.csv" 1 rows9).2.2 =
       (List.enumFrom 1 rows9).filterMap
         (fun p => if warnPred p.2 p.1 then some p.1 else none)) :=
  ⟨by decide, claim_C9_warnings "part_000000.csv" ["x"] (by decide) rows9⟩

/-- C10: with a working connection and a nonempty loaded list, the run is
cancelled iff the prompt answer, stripped and lowercased, differs from
`"y"` (in particular `"yes"` cancels); on cancellation no POST is issued
and no results counters exist (the outcome carries none), while an
affirmative answer proceeds to the batch send over the converted
records. -/
theorem claim_C10_confirm (post : Post) (pocket_links : List (List String))
    (convert : List String → PSLink) (userInput : String)
    (hlinks : pocket_links ≠ []) :
    (import_links post true pocket_links convert userInput = .cancelled ↔
      pyLower (pyStrip userInput) ≠ "y") ∧
    (pyLower (pyStrip userInput) ≠ "y" →
      requestsOf (import_links post true pocket_links convert userInput) = []) ∧
    (pyLower (pyStrip userInput) = "y" →
      import_links post true pocket_links convert userInput =
        .imported (batch_insert post (pocket_links.map convert) 50).1
          (batch_insert post (pocket_links.map convert) 50).2) := by
  have hne : ¬ pocket_links.isEmpty = true := by simpa using hlinks
  unfold import_links
  by_cases hy : pyLower (pyStrip userInput) = "y"
  · simp [hne, hy, requestsOf]
  · simp [hne, hy, requestsOf]

theorem claim_C10_confirm_witness :
    demoRows ≠ [] ∧
    ((import_links post201 true demoRows convert0 "yes" = .cancelled ↔
       pyLower (pyStrip "yes") ≠ "y") ∧
     (pyLower (pyStrip "yes") ≠ "y" →
       requestsOf (import_links post201 true demoRows convert0 "yes") = []) ∧
     (pyLower (pyStrip "yes") = "y" →
       import_links post201 true demoRows convert0 "yes" =
         .imported (batch_insert post201 (demoRows.map convert0) 50).1
           (batch_insert post201 (demoRows.map convert0) 50).2)) :=
  ⟨by decide, claim_C10_confirm post201 demoRows convert0 "yes" (by decide)⟩

end PSReadThis
